import Mathlib

/-
  Shallow embedding of Krugaroo/GasMeter (src/GasMeter/GasMeter.ino, the
  millis()-based revision, which is the authoritative latest source).

  Modelling conventions:
  * uint32 arithmetic is Nat with explicit `% 2^32` where the source relies
    on wraparound (millis subtraction, timer increments, interval doubling).
  * The float `gas_m3` is modelled exactly: over `Rat` where only arithmetic
    matters (impulse accumulation), and as `GasVal` (NaN or a rational) where
    the NaN check of `load_gas_usage` matters.  EEPROM.put/get of a float is
    byte-exact, so the persisted value round-trips exactly in the model too.
  * Time is discretised at the source's own granularity: the main loop runs
    once per millisecond (`delay(1)`), so sensor levels are sampled once per
    ms and `millis()` at loop iteration `t` is `t % 2^32`.  The interrupt
    `interrupt_impulse_pin` records a level transition at the tick where the
    new level is first visible, before that tick's poll.
  * Ghost fields (`events`, `posts`, `saves`) count observable actions
    (impulse events emitted, successful HTTP posts, EEPROM commits); they do
    not influence control flow.
-/

/-! ## Constants from the source -/

def IMPULSE_RESOLUTION : ℚ := 10 / 1000

def IMPULSE_DEBOUNCE : ℕ := 250

def EEPROM_GAS_INITIAL_VALUE : ℚ := 2670435 / 100

def EEPROM_RESET_VALUE : ℕ := 6

def SAVE_EEPROM_TIME : ℕ := 6 * 60 * 60 * 1000

def MAX_RECONNECT_TIME : ℕ := 10 * 60 * 1000

def POST_RETRY_TIME : ℕ := 5 * 60

def REPORT_HOUR : ℕ := 2

def RESET_HOUR : ℕ := 3

def U32 : ℕ := 2 ^ 32

/-! ## Persistence: `save_gas_usage` / `load_gas_usage` -/

/-- A 4-byte float cell, modelled exactly: either NaN or a rational value. -/
inductive GasVal where
  | nan : GasVal
  | num : ℚ → GasVal
deriving DecidableEq

/-- Models the C expression `gas_m3 < 1.0f` (false on NaN, as in IEEE). -/
def GasVal.ltOne : GasVal → Bool
  | .nan => false
  | .num q => decide (q < 1)

/-- Models `isnan(gas_m3)`. -/
def GasVal.isnanB : GasVal → Bool
  | .nan => true
  | .num _ => false

/-- The two EEPROM cells used by the program: the float at offset 0 and the
uint32 guard at offset 16. -/
structure Eeprom where
  gas : GasVal
  reset : ℕ
deriving DecidableEq

/-- `save_gas_usage()`: writes `gas_m3` and `EEPROM_RESET_VALUE`, commits.
(The `gas_changed = false` side effect is modelled in `save_tick` below,
where the dirty flag lives.) -/
def save_gas_usage (g : GasVal) : Eeprom :=
  { gas := g, reset := EEPROM_RESET_VALUE }

/-- The outcome of `load_gas_usage()`: the in-memory globals it sets and the
EEPROM contents afterwards; `saved` records whether `save_gas_usage()` ran. -/
structure LoadResult where
  gas_m3 : GasVal
  reset_value : ℕ
  eeprom : Eeprom
  saved : Bool
deriving DecidableEq

/-- `load_gas_usage()`: reads both cells; on `gas_m3 < 1.0f || isnan(gas_m3)
|| reset_value != EEPROM_RESET_VALUE` resets to the baseline and saves. -/
def load_gas_usage (e : Eeprom) : LoadResult :=
  if e.gas.ltOne || e.gas.isnanB || decide (e.reset ≠ EEPROM_RESET_VALUE) then
    { gas_m3 := .num EEPROM_GAS_INITIAL_VALUE
      reset_value := e.reset
      eeprom := save_gas_usage (.num EEPROM_GAS_INITIAL_VALUE)
      saved := true }
  else
    { gas_m3 := e.gas, reset_value := e.reset, eeprom := e, saved := false }

/-! ## Claims C2 and C3 -/

/-- C2: `load()` on a record with reading < 1.0, or NaN reading, or a guard
different from the scheme version (e.g. uninitialized 0xFFFFFFFF) sets the
reading to the configured baseline and immediately saves, leaving the stored
record with the baseline reading and the correct guard; a record failing none
of the three tests is loaded unchanged. -/
theorem load_recovery_spec (e : Eeprom) :
    ((e.gas.ltOne = true ∨ e.gas.isnanB = true ∨ e.reset ≠ EEPROM_RESET_VALUE) →
      (load_gas_usage e).gas_m3 = .num EEPROM_GAS_INITIAL_VALUE ∧
      (load_gas_usage e).saved = true ∧
      (load_gas_usage e).eeprom =
        { gas := .num EEPROM_GAS_INITIAL_VALUE, reset := EEPROM_RESET_VALUE }) ∧
    (e.gas.ltOne = false → e.gas.isnanB = false → e.reset = EEPROM_RESET_VALUE →
      (load_gas_usage e).gas_m3 = e.gas ∧
      (load_gas_usage e).saved = false ∧
      (load_gas_usage e).eeprom = e) := by
  constructor
  · intro h
    have hc : (e.gas.ltOne || e.gas.isnanB || decide (e.reset ≠ EEPROM_RESET_VALUE)) = true := by
      rcases h with h | h | h <;> simp [h]
    unfold load_gas_usage
    rw [if_pos hc]
    exact ⟨rfl, rfl, rfl⟩
  · intro h1 h2 h3
    have hc : (e.gas.ltOne || e.gas.isnanB || decide (e.reset ≠ EEPROM_RESET_VALUE)) = false := by
      simp [h1, h2, h3]
    unfold load_gas_usage
    rw [if_neg (by rw [hc]; simp)]
    exact ⟨rfl, rfl, rfl⟩

/-- Witness for C2 at the uninitialized-storage record: guard 0xFFFFFFFF with
a stored reading of 5.0 is recovered to the baseline and re-saved. -/
theorem load_recovery_spec_witness :
    (load_gas_usage { gas := .num 5, reset := 4294967295 }).gas_m3 =
        .num EEPROM_GAS_INITIAL_VALUE ∧
      (load_gas_usage { gas := .num 5, reset := 4294967295 }).saved = true ∧
      (load_gas_usage { gas := .num 5, reset := 4294967295 }).eeprom =
        { gas := .num EEPROM_GAS_INITIAL_VALUE, reset := EEPROM_RESET_VALUE } :=
  (load_recovery_spec { gas := .num 5, reset := 4294967295 }).1
    (Or.inr (Or.inr (by decide)))

/-- C3 counterexample: saving the reading 0.5 and loading does not yield 0.5:
the load path treats any reading below 1.0 as corrupt and replaces it with
the baseline, so the round-trip claim fails for R = 0.5. -/
theorem save_load_low_reading_cex :
    (load_gas_usage (save_gas_usage (.num (1 / 2)))).gas_m3 ≠ .num (1 / 2) ∧
      (load_gas_usage (save_gas_usage (.num (1 / 2)))).gas_m3 =
        .num EEPROM_GAS_INITIAL_VALUE := by
  have hlt : (GasVal.num ((1 : ℚ) / 2)).ltOne = true := by
    simp [GasVal.ltOne]
    norm_num
  have hload : (load_gas_usage (save_gas_usage (.num (1 / 2)))).gas_m3 =
      .num EEPROM_GAS_INITIAL_VALUE := by
    unfold load_gas_usage save_gas_usage
    rw [if_pos (by rw [hlt]; rfl)]
  refine ⟨?_, hload⟩
  rw [hload]
  simp [EEPROM_GAS_INITIAL_VALUE]
  norm_num

/-- C3 amended: for every reading R that is not NaN and not below 1.0,
saving R and then loading yields exactly R, with the stored guard (and the
loaded guard value) equal to the current scheme version. -/
theorem save_load_roundtrip (g : GasVal)
    (h1 : g.ltOne = false) (h2 : g.isnanB = false) :
    (load_gas_usage (save_gas_usage g)).gas_m3 = g ∧
      (save_gas_usage g).reset = EEPROM_RESET_VALUE ∧
      (load_gas_usage (save_gas_usage g)).reset_value = EEPROM_RESET_VALUE := by
  have hc : ((save_gas_usage g).gas.ltOne || (save_gas_usage g).gas.isnanB ||
      decide ((save_gas_usage g).reset ≠ EEPROM_RESET_VALUE)) = false := by
    simp [save_gas_usage, h1, h2]
  refine ⟨?_, rfl, ?_⟩ <;>
  · unfold load_gas_usage
    rw [if_neg (by rw [hc]; simp)]
    rfl

/-- Witness for C3 amended at R = 26704.36. -/
theorem save_load_roundtrip_witness :
    (load_gas_usage (save_gas_usage (.num (2670436 / 100)))).gas_m3 =
      .num (2670436 / 100) :=
  (save_load_roundtrip (.num (2670436 / 100))
    (by simp [GasVal.ltOne]; norm_num) (by simp [GasVal.isnanB])).1

/-! ## ConnectivityManager: `reconnect_to_wifi` and the loop's WiFi block -/

/-- WiFi reconnect bookkeeping: `wifi_reconnect_interval` and
`wifi_reconnect_time` (both uint32, ms). -/
structure WifiState where
  wifi_reconnect_interval : ℕ
  wifi_reconnect_time : ℕ
deriving DecidableEq

/-- `reconnect_to_wifi()`: doubles the interval (uint32 multiply), then
clamps it to `MAX_RECONNECT_TIME`. -/
def reconnect_to_wifi (i : ℕ) : ℕ :=
  let d := i * 2 % U32
  if MAX_RECONNECT_TIME ≤ d then MAX_RECONNECT_TIME else d

/-- One loop iteration of the WiFi block: when disconnected, attempt a
reconnect once the timer reaches the interval (the timer is not reset by an
attempt), otherwise advance the timer; when connected with a nonzero timer,
reset interval and timer. -/
def wifiStep (connected : Bool) (s : WifiState) : WifiState :=
  if connected = false then
    if s.wifi_reconnect_interval ≤ s.wifi_reconnect_time then
      { s with wifi_reconnect_interval := reconnect_to_wifi s.wifi_reconnect_interval }
    else
      { s with wifi_reconnect_time := (s.wifi_reconnect_time + 1) % U32 }
  else if 0 < s.wifi_reconnect_time then
    { wifi_reconnect_interval := 1000, wifi_reconnect_time := 0 }
  else s

/-- The globals' initial values: interval 1000 ms, timer 0. -/
def wifiInit : WifiState :=
  { wifi_reconnect_interval := 1000, wifi_reconnect_time := 0 }

/-- Reachability invariant of the WiFi block: the interval stays within
[base, cap], the timer never exceeds the cap (it only advances while below
the interval), and a zero timer implies the interval is still the base. -/
def WifiInv (s : WifiState) : Prop :=
  1000 ≤ s.wifi_reconnect_interval ∧
    s.wifi_reconnect_interval ≤ MAX_RECONNECT_TIME ∧
    s.wifi_reconnect_time ≤ MAX_RECONNECT_TIME ∧
    (s.wifi_reconnect_time = 0 → s.wifi_reconnect_interval = 1000)

/-! ## Claim C7 -/

/-- C7: within the reachable range, each failed reconnect attempt maps the
interval to exactly min(2·interval, cap) — so it at least doubles up to the
cap and never exceeds it; the interval never falls below the base 1000 ms
(the invariant is preserved by every loop iteration from the initial state);
and a single successful connect resets the interval to the base. -/
theorem wifi_backoff_properties :
    (∀ i : ℕ, 1000 ≤ i → i ≤ MAX_RECONNECT_TIME →
      reconnect_to_wifi i = min (2 * i) MAX_RECONNECT_TIME ∧
      1000 ≤ reconnect_to_wifi i ∧ reconnect_to_wifi i ≤ MAX_RECONNECT_TIME) ∧
    WifiInv wifiInit ∧
    (∀ (c : Bool) (s : WifiState), WifiInv s → WifiInv (wifiStep c s)) ∧
    (∀ s : WifiState, WifiInv s →
      (wifiStep true s).wifi_reconnect_interval = 1000) := by
  have hupd : ∀ i : ℕ, 1000 ≤ i → i ≤ MAX_RECONNECT_TIME →
      reconnect_to_wifi i = min (2 * i) MAX_RECONNECT_TIME ∧
      1000 ≤ reconnect_to_wifi i ∧ reconnect_to_wifi i ≤ MAX_RECONNECT_TIME := by
    intro i h1 h2
    have hmax : MAX_RECONNECT_TIME = 600000 := rfl
    have hu32 : U32 = 4294967296 := rfl
    have hmod : i * 2 % U32 = i * 2 := Nat.mod_eq_of_lt (by omega)
    unfold reconnect_to_wifi
    rw [hmod]
    by_cases hcap : MAX_RECONNECT_TIME ≤ i * 2
    · rw [if_pos hcap]
      refine ⟨?_, ?_, le_refl _⟩ <;> omega
    · rw [if_neg hcap]
      refine ⟨?_, ?_, ?_⟩ <;> omega
  refine ⟨hupd, ⟨by decide, by decide, by decide, fun _ => rfl⟩, ?_, ?_⟩
  · intro c s hs
    rcases hs with ⟨hs1, hs2, hs3, hs4⟩
    have hmax : MAX_RECONNECT_TIME = 600000 := rfl
    have hu32 : U32 = 4294967296 := rfl
    unfold wifiStep
    by_cases hc : c = false
    · rw [if_pos hc]
      by_cases ht : s.wifi_reconnect_interval ≤ s.wifi_reconnect_time
      · rw [if_pos ht]
        rcases hupd s.wifi_reconnect_interval hs1 hs2 with ⟨_, hb1, hb2⟩
        refine ⟨hb1, hb2, hs3, fun h0 => ?_⟩
        have h0' : s.wifi_reconnect_time = 0 := h0
        omega
      · rw [if_neg ht]
        have hmod : (s.wifi_reconnect_time + 1) % U32 = s.wifi_reconnect_time + 1 :=
          Nat.mod_eq_of_lt (by omega)
        refine ⟨hs1, hs2, ?_, fun h0 => ?_⟩
        · show (s.wifi_reconnect_time + 1) % U32 ≤ MAX_RECONNECT_TIME
          omega
        · have h0' : (s.wifi_reconnect_time + 1) % U32 = 0 := h0
          omega
    · rw [if_neg hc]
      by_cases ht : 0 < s.wifi_reconnect_time
      · rw [if_pos ht]
        exact ⟨by decide, by decide, by decide, fun _ => rfl⟩
      · rw [if_neg ht]
        exact ⟨hs1, hs2, hs3, hs4⟩
  · intro s hs
    rcases hs with ⟨hs1, hs2, hs3, hs4⟩
    unfold wifiStep
    rw [if_neg (by simp)]
    by_cases ht : 0 < s.wifi_reconnect_time
    · rw [if_pos ht]
    · rw [if_neg ht]
      exact hs4 (by omega)

/-- Witness for C7: at the boot interval 1000 ms, a failed attempt yields
exactly 2000 ms, and a successful connect from the initial state keeps the
base interval. -/
theorem wifi_backoff_properties_witness :
    reconnect_to_wifi 1000 = min (2 * 1000) MAX_RECONNECT_TIME ∧
      (wifiStep true wifiInit).wifi_reconnect_interval = 1000 :=
  ⟨(wifi_backoff_properties.1 1000 (by decide) (by decide)).1,
    wifi_backoff_properties.2.2.2 wifiInit wifi_backoff_properties.2.1⟩

/-! ## PersistenceScheduler: the loop's EEPROM block -/

/-- State of the loop's periodic-save block: the in-memory reading, the
dirty flag, the ms timer, the EEPROM contents, and a ghost counter of
`save_gas_usage()` calls. -/
structure SaveState where
  gas_m3 : GasVal
  gas_changed : Bool
  save_time : ℕ
  eeprom : Eeprom
  saves : ℕ
deriving DecidableEq

/-- One loop iteration of the EEPROM block: once `save_time` has reached
`SAVE_EEPROM_TIME`, call `save_gas_usage()` (which also clears
`gas_changed`) and restart the timer — but only if the reading changed;
otherwise keep waiting.  Below the threshold, advance the timer. -/
def save_tick (s : SaveState) : SaveState :=
  if SAVE_EEPROM_TIME ≤ s.save_time then
    if s.gas_changed then
      { s with eeprom := save_gas_usage s.gas_m3
               gas_changed := false
               save_time := 0
               saves := s.saves + 1 }
    else s
  else { s with save_time := (s.save_time + 1) % U32 }

/-! ## Claim C9 -/

/-- C9: once the save period has elapsed, `save()` runs if and only if the
dirty flag is set; a save clears the dirty flag and writes the current
reading with the correct guard; below the period no save happens; and no
step ever commits to storage while the reading is unchanged since the last
save. -/
theorem periodic_save_dirty_gate (s : SaveState) :
    (SAVE_EEPROM_TIME ≤ s.save_time →
      (((save_tick s).saves = s.saves + 1) ↔ s.gas_changed = true) ∧
      (s.gas_changed = true →
        (save_tick s).gas_changed = false ∧
        (save_tick s).eeprom = { gas := s.gas_m3, reset := EEPROM_RESET_VALUE })) ∧
    (s.save_time < SAVE_EEPROM_TIME → (save_tick s).saves = s.saves) ∧
    ((save_tick s).eeprom ≠ s.eeprom → s.gas_changed = true) := by
  unfold save_tick
  by_cases hp : SAVE_EEPROM_TIME ≤ s.save_time
  · rw [if_pos hp]
    by_cases hd : s.gas_changed
    · rw [if_pos hd]
      refine ⟨fun _ => ⟨?_, fun _ => ⟨rfl, rfl⟩⟩, fun hlt => absurd hp (by omega), fun _ => hd⟩
      simp [hd]
    · rw [if_neg hd]
      refine ⟨fun _ => ⟨?_, fun hc => absurd hc (by simpa using hd)⟩,
        fun hlt => absurd hp (by omega), fun hne => absurd rfl hne⟩
      constructor
      · intro h
        have h' : s.saves = s.saves + 1 := h
        omega
      · intro hc
        exact absurd hc (by simpa using hd)
  · rw [if_neg hp]
    refine ⟨fun hge => absurd hge hp, fun _ => rfl, fun hne => absurd rfl hne⟩

/-- A concrete dirty state with the timer exactly at the period, for the C9
witness. -/
def saveWitnessState : SaveState :=
  { gas_m3 := .num 2, gas_changed := true, save_time := SAVE_EEPROM_TIME,
    eeprom := { gas := .nan, reset := 0 }, saves := 0 }

/-- Witness for C9: with the timer exactly at the period and a dirty
reading of 2.0, a save is recorded. -/
theorem periodic_save_dirty_gate_witness :
    ((save_tick saveWitnessState).saves = saveWitnessState.saves + 1) ↔
      saveWitnessState.gas_changed = true :=
  ((periodic_save_dirty_gate saveWitnessState).1 (le_refl _)).1

/-! ## ImpulseDetector: `interrupt_impulse_pin` + `check_gas_impulse`

The sensor level at each 1 ms tick is a `Bool`: `true` means the pin reads
`IMPULSE_SENSOR_ACTIVE_EDGE` (Active), `false` means Idle.  `millis()` at
tick `t` is `t % 2^32`.  The interrupt fires on a level change before that
tick's poll. -/

/-- uint32 subtraction `a - b` for operands already reduced mod 2^32. -/
def sub32 (a b : ℕ) : ℕ := (a + U32 - b) % U32

/-- The impulse detector's globals, plus a ghost event counter. -/
structure ImpState where
  gas_m3 : ℚ
  gas_changed : Bool
  last_pin_state : Bool
  time_impulse : ℕ
  time_idle : ℕ
  allow_to_trigger : Bool
  events : ℕ
deriving DecidableEq

/-- `interrupt_impulse_pin()` at tick `t` when the sampled level is `L`:
on a change, record `millis()` into the matching transition timestamp. -/
def interrupt_impulse_pin (t : ℕ) (L : Bool) (s : ImpState) : ImpState :=
  if L ≠ s.last_pin_state then
    if L then { s with time_impulse := t % U32, last_pin_state := L }
    else { s with time_idle := t % U32, last_pin_state := L }
  else s

/-- `check_gas_impulse()` at tick `t` when the sampled level is `L`. -/
def check_gas_impulse (t : ℕ) (L : Bool) (s : ImpState) : ImpState :=
  if L then
    if s.allow_to_trigger then
      if IMPULSE_DEBOUNCE < sub32 (t % U32) s.time_impulse then
        { s with gas_m3 := s.gas_m3 + IMPULSE_RESOLUTION
                 gas_changed := true
                 allow_to_trigger := false
                 events := s.events + 1 }
      else s
    else s
  else
    if s.allow_to_trigger then s
    else if IMPULSE_DEBOUNCE < sub32 (t % U32) s.time_idle then
      { s with allow_to_trigger := true }
    else s

/-- One 1 ms tick of the impulse path: the interrupt records any transition,
then the loop polls `check_gas_impulse()`. -/
def impStep (t : ℕ) (L : Bool) (s : ImpState) : ImpState :=
  check_gas_impulse t L (interrupt_impulse_pin t L s)

/-- Run the impulse path over a level sample per tick, starting at tick `t`. -/
def impRun : ℕ → List Bool → ImpState → ImpState
  | _, [], s => s
  | t, L :: w, s => impRun (t + 1) w (impStep t L s)

/-- The impulse globals as initialized at boot (after `load_gas_usage` set
`gas_m3` to the baseline): `last_pin_state` starts at the ACTIVE edge. -/
def impBoot : ImpState :=
  { gas_m3 := EEPROM_GAS_INITIAL_VALUE
    gas_changed := false
    last_pin_state := true
    time_impulse := 0
    time_idle := 0
    allow_to_trigger := true
    events := 0 }

/-! ## Impulse-path lemmas -/

theorem sub32_self (a : ℕ) : sub32 a a = 0 := by
  unfold sub32
  have h : a + U32 - a = U32 := by omega
  rw [h, Nat.mod_self]

theorem sub32_eq_sub (a b : ℕ) (hba : b ≤ a) (ha : a < U32) : sub32 a b = a - b := by
  unfold sub32
  have h : a + U32 - b = (a - b) + U32 := by omega
  rw [h, Nat.add_mod_right]
  exact Nat.mod_eq_of_lt (by omega)

theorem impRun_append (u : List Bool) : ∀ (t : ℕ) (v : List Bool) (s : ImpState),
    impRun t (u ++ v) s = impRun (t + u.length) v (impRun t u s) := by
  induction u with
  | nil => intro t v s; simp [impRun]
  | cons L u ih =>
      intro t v s
      show impRun (t + 1) (u ++ v) (impStep t L s) =
        impRun (t + (L :: u).length) v (impRun (t + 1) u (impStep t L s))
      rw [ih]
      have h : t + 1 + u.length = t + (L :: u).length := by
        simp [List.length_cons]
        omega
      rw [h]

/-- A first Active tick after an Idle phase: the interrupt records the
transition; the poll cannot trigger because the elapsed time is 0. -/
theorem impStep_active_first (t : ℕ) (s : ImpState)
    (hpin : s.last_pin_state = false) (hallow : s.allow_to_trigger = true) :
    impStep t true s = { s with time_impulse := t % U32, last_pin_state := true } := by
  have hint : interrupt_impulse_pin t true s =
      { s with time_impulse := t % U32, last_pin_state := true } := by
    unfold interrupt_impulse_pin
    rw [if_pos (by simp [hpin]), if_pos rfl]
  unfold impStep
  rw [hint]
  unfold check_gas_impulse
  rw [if_pos rfl, if_pos hallow, if_neg]
  show ¬IMPULSE_DEBOUNCE < sub32 (t % U32) (t % U32)
  rw [sub32_self]
  decide

/-- An Active tick while armed, within the debounce window: no state change. -/
theorem impStep_active_quiet (t : ℕ) (s : ImpState)
    (hpin : s.last_pin_state = true) (hallow : s.allow_to_trigger = true)
    (hti : s.time_impulse ≤ t) (ht : t < U32)
    (hdb : t - s.time_impulse ≤ IMPULSE_DEBOUNCE) :
    impStep t true s = s := by
  have hint : interrupt_impulse_pin t true s = s := by
    unfold interrupt_impulse_pin
    rw [if_neg (by simp [hpin])]
  unfold impStep
  rw [hint]
  unfold check_gas_impulse
  rw [if_pos rfl, if_pos hallow, if_neg]
  rw [Nat.mod_eq_of_lt ht, sub32_eq_sub t s.time_impulse hti ht]
  omega

/-- An Active tick while armed, past the debounce window: the impulse fires. -/
theorem impStep_active_trigger (t : ℕ) (s : ImpState)
    (hpin : s.last_pin_state = true) (hallow : s.allow_to_trigger = true)
    (hti : s.time_impulse ≤ t) (ht : t < U32)
    (hdb : IMPULSE_DEBOUNCE < t - s.time_impulse) :
    impStep t true s =
      { s with gas_m3 := s.gas_m3 + IMPULSE_RESOLUTION
               gas_changed := true
               allow_to_trigger := false
               events := s.events + 1 } := by
  have hint : interrupt_impulse_pin t true s = s := by
    unfold interrupt_impulse_pin
    rw [if_neg (by simp [hpin])]
  unfold impStep
  rw [hint]
  unfold check_gas_impulse
  rw [if_pos rfl, if_pos hallow, if_pos]
  rw [Nat.mod_eq_of_lt ht, sub32_eq_sub t s.time_impulse hti ht]
  exact hdb

/-- An Active tick while latched (pin already Active): no state change. -/
theorem impStep_active_latched (t : ℕ) (s : ImpState)
    (hpin : s.last_pin_state = true) (hallow : s.allow_to_trigger = false) :
    impStep t true s = s := by
  have hint : interrupt_impulse_pin t true s = s := by
    unfold interrupt_impulse_pin
    rw [if_neg (by simp [hpin])]
  unfold impStep
  rw [hint]
  unfold check_gas_impulse
  rw [if_pos rfl, if_neg (by simp [hallow])]

/-- An Active bounce while latched (pin was Idle): only the transition
timestamp and the remembered pin level change. -/
theorem impStep_active_latched_trans (t : ℕ) (s : ImpState)
    (hpin : s.last_pin_state = false) (hallow : s.allow_to_trigger = false) :
    impStep t true s = { s with time_impulse := t % U32, last_pin_state := true } := by
  have hint : interrupt_impulse_pin t true s =
      { s with time_impulse := t % U32, last_pin_state := true } := by
    unfold interrupt_impulse_pin
    rw [if_pos (by simp [hpin]), if_pos rfl]
  unfold impStep
  rw [hint]
  unfold check_gas_impulse
  rw [if_pos rfl, if_neg (by simp [hallow])]

/-- A first Idle tick while latched (pin was Active): the interrupt records
the transition; the poll cannot unlatch because the elapsed time is 0. -/
theorem impStep_idle_latched_trans (t : ℕ) (s : ImpState)
    (hpin : s.last_pin_state = true) (hallow : s.allow_to_trigger = false) :
    impStep t false s = { s with time_idle := t % U32, last_pin_state := false } := by
  have hint : interrupt_impulse_pin t false s =
      { s with time_idle := t % U32, last_pin_state := false } := by
    unfold interrupt_impulse_pin
    rw [if_pos (by simp [hpin]), if_neg (by simp)]
  unfold impStep
  rw [hint]
  unfold check_gas_impulse
  rw [if_neg (by simp), if_neg (by simp [hallow]), if_neg]
  show ¬IMPULSE_DEBOUNCE < sub32 (t % U32) (t % U32)
  rw [sub32_self]
  decide

/-- An Idle tick while latched, within the debounce window: no state change. -/
theorem impStep_idle_latched_quiet (t : ℕ) (s : ImpState)
    (hpin : s.last_pin_state = false) (hallow : s.allow_to_trigger = false)
    (hti : s.time_idle ≤ t) (ht : t < U32)
    (hdb : t - s.time_idle ≤ IMPULSE_DEBOUNCE) :
    impStep t false s = s := by
  have hint : interrupt_impulse_pin t false s = s := by
    unfold interrupt_impulse_pin
    rw [if_neg (by simp [hpin])]
  unfold impStep
  rw [hint]
  unfold check_gas_impulse
  rw [if_neg (by simp), if_neg (by simp [hallow]), if_neg]
  rw [Nat.mod_eq_of_lt ht, sub32_eq_sub t s.time_idle hti ht]
  omega

/-- Sustained Active while armed, all within the debounce window measured
from the recorded transition: the state is left exactly as it was. -/
theorem impRun_active_quiet (k : ℕ) : ∀ (t : ℕ) (s : ImpState),
    s.last_pin_state = true → s.allow_to_trigger = true →
    s.time_impulse ≤ t → t + k ≤ U32 →
    t - s.time_impulse + k ≤ IMPULSE_DEBOUNCE + 1 →
    impRun t (List.replicate k true) s = s := by
  induction k with
  | zero => intro t s _ _ _ _ _; rfl
  | succ k ih =>
      intro t s h1 h2 h3 h4 h5
      have hD : IMPULSE_DEBOUNCE = 250 := rfl
      rw [List.replicate_succ]
      show impRun (t + 1) (List.replicate k true) (impStep t true s) = s
      rw [impStep_active_quiet t s h1 h2 h3 (by omega) (by omega)]
      exact ih (t + 1) s h1 h2 (by omega) (by omega) (by omega)

/-- `idleBounded n j w = true` iff every maximal contiguous Idle run in `w`
has length at most `n`, where `j` Idle samples immediately precede `w`. -/
def idleBounded (n : ℕ) : ℕ → List Bool → Bool
  | _, [] => true
  | _, true :: w => idleBounded n 0 w
  | j, false :: w => decide (j + 1 ≤ n) && idleBounded n (j + 1) w

theorem idleBounded_mono (w : List Bool) : ∀ (j m n : ℕ), m ≤ n →
    idleBounded m j w = true → idleBounded n j w = true := by
  induction w with
  | nil => intro j m n _ _; rfl
  | cons L w ih =>
      intro j m n hmn h
      cases L
      case true => exact ih 0 m n hmn h
      case false =>
        unfold idleBounded at h ⊢
        rw [Bool.and_eq_true] at h ⊢
        exact ⟨by simp at h ⊢; omega, ih (j + 1) m n hmn h.2⟩

theorem idleBounded_replicate_true (d : ℕ) : ∀ (n : ℕ) (w : List Bool),
    idleBounded n 0 (List.replicate d true ++ w) = idleBounded n 0 w := by
  induction d with
  | zero => intro n w; rfl
  | succ d ih =>
      intro n w
      rw [List.replicate_succ]
      show idleBounded n 0 (List.replicate d true ++ w) = idleBounded n 0 w
      exact ih n w

/-- While latched, no input whose contiguous Idle runs all stay within the
debounce window can unlatch the detector, and no events or reading changes
occur.  `j` counts the Idle samples consumed just before time `t`. -/
theorem impRun_latched (w : List Bool) : ∀ (j t : ℕ) (s : ImpState),
    s.allow_to_trigger = false →
    t + w.length ≤ U32 →
    idleBounded (IMPULSE_DEBOUNCE + 1) j w = true →
    (s.last_pin_state = true → j = 0) →
    (s.last_pin_state = false → s.time_idle ≤ t ∧ t - s.time_idle = j) →
    (impRun t w s).events = s.events ∧ (impRun t w s).gas_m3 = s.gas_m3 ∧
      (impRun t w s).allow_to_trigger = false := by
  induction w with
  | nil => intro j t s hal _ _ _ _; exact ⟨rfl, rfl, hal⟩
  | cons L w ih =>
      intro j t s hal hb hib hpt hpf
      have ht : t < U32 := by
        have hlen := hb
        simp [List.length_cons] at hlen
        omega
      have hb' : t + 1 + w.length ≤ U32 := by
        have hlen := hb
        simp [List.length_cons] at hlen
        omega
      cases L
      case true =>
        have hib' : idleBounded (IMPULSE_DEBOUNCE + 1) 0 w = true := hib
        have hrun : impRun t (true :: w) s = impRun (t + 1) w (impStep t true s) := rfl
        cases hpin : s.last_pin_state
        case true =>
          rw [hrun, impStep_active_latched t s hpin hal]
          exact ih 0 (t + 1) s hal hb' hib' (fun _ => rfl)
            (by rw [hpin]; intro h; exact Bool.noConfusion h)
        case false =>
          rw [hrun, impStep_active_latched_trans t s hpin hal]
          exact ih 0 (t + 1) _ hal hb' hib' (fun _ => rfl)
            (by intro h; exact Bool.noConfusion h)
      case false =>
        have hsplit : j + 1 ≤ IMPULSE_DEBOUNCE + 1 ∧
            idleBounded (IMPULSE_DEBOUNCE + 1) (j + 1) w = true := by
          have h := hib
          unfold idleBounded at h
          rw [Bool.and_eq_true] at h
          exact ⟨by simpa using h.1, h.2⟩
        have hrun : impRun t (false :: w) s = impRun (t + 1) w (impStep t false s) := rfl
        cases hpin : s.last_pin_state
        case true =>
          rw [hrun, impStep_idle_latched_trans t s hpin hal]
          refine ih (j + 1) (t + 1) _ hal hb' hsplit.2
            (by intro h; exact Bool.noConfusion h) ?_
          intro _
          show t % U32 ≤ t + 1 ∧ t + 1 - t % U32 = j + 1
          have hj : j = 0 := hpt hpin
          rw [Nat.mod_eq_of_lt ht]
          omega
        case false =>
          rcases hpf hpin with ⟨hle, hsub⟩
          have hD : IMPULSE_DEBOUNCE = 250 := rfl
          have hquiet : impStep t false s = s :=
            impStep_idle_latched_quiet t s hpin hal hle ht (by omega)
          rw [hrun, hquiet]
          refine ih (j + 1) (t + 1) s hal hb' hsplit.2
            (by rw [hpin]; intro h; exact Bool.noConfusion h) ?_
          intro _
          omega

theorem impRun_cons (t : ℕ) (L : Bool) (w : List Bool) (s : ImpState) :
    impRun t (L :: w) s = impRun (t + 1) w (impStep t L s) := rfl

/-! ## Claim C1 -/

/-- A detector state that is armed and currently Idle (a debounced Idle
phase has completed), with concrete remaining fields. -/
def impReady : ImpState :=
  { gas_m3 := EEPROM_GAS_INITIAL_VALUE
    gas_changed := false
    last_pin_state := false
    time_impulse := 0
    time_idle := 0
    allow_to_trigger := true
    events := 0 }

/-- C1 counterexample: from an armed, Idle detector, an Active span of
exactly `IMPULSE_DEBOUNCE` samples (250 ms, hence a span of duration D)
produces zero impulse events, because the code requires `millis() -
time_impulse` to strictly exceed the debounce at some 1 ms poll that is
still Active — refuting "a span of duration at least D produces exactly
one event". -/
theorem debounce_exact_span_no_event :
    impReady.allow_to_trigger = true ∧ impReady.last_pin_state = false ∧
      (List.replicate IMPULSE_DEBOUNCE true).length = IMPULSE_DEBOUNCE ∧
      (impRun 1000 (List.replicate IMPULSE_DEBOUNCE true) impReady).events = 0 := by
  have hD : IMPULSE_DEBOUNCE = 250 := rfl
  have hu : U32 = 4294967296 := rfl
  refine ⟨rfl, rfl, List.length_replicate _ _, ?_⟩
  rw [hD]
  rw [show (250 : ℕ) = 249 + 1 by norm_num, List.replicate_succ]
  rw [impRun_cons, impStep_active_first 1000 impReady rfl rfl,
    Nat.mod_eq_of_lt (show (1000 : ℕ) < U32 by omega)]
  rw [impRun_active_quiet 249 (1000 + 1)
    { impReady with time_impulse := 1000, last_pin_state := true }
    rfl rfl (show (1000 : ℕ) ≤ 1000 + 1 by omega) (by omega)
    (show 1000 + 1 - 1000 + 249 ≤ IMPULSE_DEBOUNCE + 1 by omega)]
  rfl

/-- C1 (amended): from an armed detector in an Idle phase, a contiguous
Active span of at most D+1 samples produces zero impulse events (this
includes every span shorter than D); a span of at least D+2 samples — the
exact threshold the strict comparison plus 1 ms polling enforces — produces
exactly one event, incrementing the reading by exactly one resolution unit,
regardless of bouncing afterwards as long as every contiguous Idle run stays
shorter than D. -/
theorem debounce_span_event_count (a e : ℕ) (w : List Bool) (s : ImpState)
    (hb : a + e + w.length ≤ U32)
    (hallow : s.allow_to_trigger = true) (hpin : s.last_pin_state = false) :
    (e ≤ IMPULSE_DEBOUNCE + 1 →
      (impRun a (List.replicate e true) s).events = s.events) ∧
    (IMPULSE_DEBOUNCE + 2 ≤ e → idleBounded (IMPULSE_DEBOUNCE - 1) 0 w = true →
      (impRun a (List.replicate e true ++ w) s).events = s.events + 1 ∧
      (impRun a (List.replicate e true ++ w) s).gas_m3 =
        s.gas_m3 + IMPULSE_RESOLUTION) := by
  have hD : IMPULSE_DEBOUNCE = 250 := rfl
  have hu : U32 = 4294967296 := rfl
  constructor
  · intro he
    rw [hD] at he
    cases e with
    | zero => rfl
    | succ k =>
        have ha : a < U32 := by omega
        rw [List.replicate_succ]
        rw [impRun_cons, impStep_active_first a s hpin hallow, Nat.mod_eq_of_lt ha]
        rw [impRun_active_quiet k (a + 1)
          { s with time_impulse := a, last_pin_state := true }
          rfl hallow (show a ≤ a + 1 by omega) (by omega)
          (show a + 1 - a + k ≤ IMPULSE_DEBOUNCE + 1 by omega)]
  · intro he hw
    rw [hD] at he
    have ha : a < U32 := by omega
    obtain ⟨d, rfl⟩ : ∃ d, e = 252 + d := ⟨e - 252, by omega⟩
    have h252 : List.replicate 252 true =
        true :: (List.replicate 250 true ++ [true]) := by
      rw [show (252 : ℕ) = 1 + (250 + 1) by norm_num]
      rw [List.replicate_add, List.replicate_add]
      simp only [List.replicate_one, List.singleton_append]
    have hdec : List.replicate (252 + d) true ++ w =
        true :: (List.replicate 250 true ++
          (true :: (List.replicate d true ++ w))) := by
      rw [List.replicate_add, h252]
      simp only [List.cons_append, List.append_assoc, List.singleton_append,
        List.nil_append]
    rw [hdec]
    rw [impRun_cons, impStep_active_first a s hpin hallow, Nat.mod_eq_of_lt ha]
    rw [impRun_append]
    rw [impRun_active_quiet 250 (a + 1)
      { s with time_impulse := a, last_pin_state := true }
      rfl hallow (show a ≤ a + 1 by omega) (by omega)
      (show a + 1 - a + 250 ≤ IMPULSE_DEBOUNCE + 1 by omega)]
    simp only [List.length_replicate]
    rw [impRun_cons]
    rw [impStep_active_trigger (a + 1 + 250)
      { s with time_impulse := a, last_pin_state := true }
      rfl hallow (show a ≤ a + 1 + 250 by omega) (by omega)
      (show IMPULSE_DEBOUNCE < a + 1 + 250 - a by omega)]
    rw [show a + 1 + 250 + 1 = a + 252 by omega]
    have hwZ : idleBounded (IMPULSE_DEBOUNCE + 1) 0
        (List.replicate d true ++ w) = true := by
      rw [idleBounded_replicate_true]
      exact idleBounded_mono w 0 (IMPULSE_DEBOUNCE - 1) (IMPULSE_DEBOUNCE + 1)
        (by omega) hw
    have hlat := impRun_latched (List.replicate d true ++ w) 0 (a + 252)
      { s with time_impulse := a, last_pin_state := true,
               gas_m3 := s.gas_m3 + IMPULSE_RESOLUTION, gas_changed := true,
               allow_to_trigger := false, events := s.events + 1 }
      rfl
      (by simp only [List.length_append, List.length_replicate]; omega)
      hwZ (fun _ => rfl) (fun h => Bool.noConfusion h)
    exact ⟨hlat.1, hlat.2.1⟩

/-- Witness for C1 (amended) at a concrete run: 252 Active samples followed
by one Idle sample, from the armed Idle detector, emit exactly one event. -/
theorem debounce_span_event_count_witness :
    (impRun 0 (List.replicate 252 true ++ [false]) impReady).events =
      impReady.events + 1 :=
  ((debounce_span_event_count 0 252 [false] impReady (by norm_num [U32]) rfl rfl).2
    (by decide) (by decide)).1

/-! ## Claim C10 -/

/-- C10: at boot both transition timestamps are 0 and `last_pin_state` is
initialized to the Active edge, so with the sensor held Active from boot no
transition is ever recorded; the detector nevertheless fires one impulse
(incrementing the reading by one resolution unit) at the first poll whose
`millis()` exceeds the debounce duration — after 252 ticks, none after 251. -/
theorem boot_active_spurious_impulse :
    impBoot.time_impulse = 0 ∧ impBoot.time_idle = 0 ∧
      impBoot.last_pin_state = true ∧
      (impRun 0 (List.replicate (IMPULSE_DEBOUNCE + 1) true) impBoot).events = 0 ∧
      (impRun 0 (List.replicate (IMPULSE_DEBOUNCE + 2) true) impBoot).events = 1 ∧
      (impRun 0 (List.replicate (IMPULSE_DEBOUNCE + 2) true) impBoot).gas_m3 =
        impBoot.gas_m3 + IMPULSE_RESOLUTION := by
  have hD : IMPULSE_DEBOUNCE = 250 := rfl
  have hu : U32 = 4294967296 := rfl
  have hquiet : impRun 0 (List.replicate (IMPULSE_DEBOUNCE + 1) true) impBoot =
      impBoot :=
    impRun_active_quiet (IMPULSE_DEBOUNCE + 1) 0 impBoot rfl rfl
      (show (0 : ℕ) ≤ 0 by omega) (by omega)
      (show 0 - 0 + (IMPULSE_DEBOUNCE + 1) ≤ IMPULSE_DEBOUNCE + 1 by omega)
  have hsplit : List.replicate (IMPULSE_DEBOUNCE + 2) true =
      List.replicate (IMPULSE_DEBOUNCE + 1) true ++ [true] := by
    rw [show IMPULSE_DEBOUNCE + 2 = (IMPULSE_DEBOUNCE + 1) + 1 by omega]
    rw [List.replicate_add, List.replicate_one]
  have htrig : impRun 0 (List.replicate (IMPULSE_DEBOUNCE + 2) true) impBoot =
      { impBoot with gas_m3 := impBoot.gas_m3 + IMPULSE_RESOLUTION
                     gas_changed := true
                     allow_to_trigger := false
                     events := impBoot.events + 1 } := by
    rw [hsplit, impRun_append, hquiet]
    simp only [List.length_replicate]
    rw [impRun_cons, impStep_active_trigger (0 + (IMPULSE_DEBOUNCE + 1)) impBoot
      rfl rfl (show impBoot.time_impulse ≤ 0 + (IMPULSE_DEBOUNCE + 1) from by
        show (0 : ℕ) ≤ 0 + (IMPULSE_DEBOUNCE + 1); omega)
      (by omega)
      (show IMPULSE_DEBOUNCE < 0 + (IMPULSE_DEBOUNCE + 1) - impBoot.time_impulse from by
        show IMPULSE_DEBOUNCE < 0 + (IMPULSE_DEBOUNCE + 1) - 0; omega)]
    rfl
  refine ⟨rfl, rfl, rfl, ?_, ?_, ?_⟩
  · rw [hquiet]
    rfl
  · rw [htrig]
    rfl
  · rw [htrig]

/-! ## Claim C8 -/

theorem interrupt_preserves (t : ℕ) (L : Bool) (s : ImpState) :
    (interrupt_impulse_pin t L s).gas_m3 = s.gas_m3 ∧
      (interrupt_impulse_pin t L s).events = s.events ∧
      (interrupt_impulse_pin t L s).allow_to_trigger = s.allow_to_trigger := by
  unfold interrupt_impulse_pin
  split_ifs <;> exact ⟨rfl, rfl, rfl⟩

/-- Each loop tick either leaves the reading and event count unchanged, or
increments the event count by one and the reading by one resolution unit. -/
theorem impStep_gas_events (t : ℕ) (L : Bool) (s : ImpState) :
    ((impStep t L s).gas_m3 = s.gas_m3 ∧ (impStep t L s).events = s.events) ∨
    ((impStep t L s).gas_m3 = s.gas_m3 + IMPULSE_RESOLUTION ∧
      (impStep t L s).events = s.events + 1) := by
  obtain ⟨h1, h2, _⟩ := interrupt_preserves t L s
  unfold impStep check_gas_impulse
  split_ifs <;>
    first
      | exact Or.inl ⟨h1, h2⟩
      | exact Or.inr ⟨congrArg (fun x => x + IMPULSE_RESOLUTION) h1,
          congrArg (fun x => x + 1) h2⟩

/-- C8: along every run of the impulse path the reading changes only by the
emitted events times the fixed resolution — hence it is monotonically
non-decreasing — and the only other write, `load_gas_usage` at boot, either
keeps the stored reading or resets it to the configured baseline. -/
theorem reading_monotone :
    (∀ (t : ℕ) (w : List Bool) (s : ImpState), ∃ k : ℕ,
      (impRun t w s).events = s.events + k ∧
      (impRun t w s).gas_m3 = s.gas_m3 + (k : ℚ) * IMPULSE_RESOLUTION ∧
      s.gas_m3 ≤ (impRun t w s).gas_m3) ∧
    (∀ e : Eeprom, (load_gas_usage e).gas_m3 = e.gas ∨
      (load_gas_usage e).gas_m3 = .num EEPROM_GAS_INITIAL_VALUE) := by
  have hres : (0 : ℚ) ≤ IMPULSE_RESOLUTION := by norm_num [IMPULSE_RESOLUTION]
  constructor
  · intro t w s
    induction w generalizing t s with
    | nil => exact ⟨0, by simp [impRun], by simp [impRun], le_refl _⟩
    | cons L w ih =>
        obtain ⟨k, hk1, hk2, _⟩ := ih (t + 1) (impStep t L s)
        rcases impStep_gas_events t L s with ⟨h1, h2⟩ | ⟨h1, h2⟩
        · refine ⟨k, ?_, ?_, ?_⟩
          · rw [impRun_cons, hk1, h2]
          · rw [impRun_cons, hk2, h1]
          · rw [impRun_cons, hk2, h1]
            have : (0 : ℚ) ≤ (k : ℚ) * IMPULSE_RESOLUTION :=
              mul_nonneg (by positivity) hres
            linarith
        · refine ⟨k + 1, ?_, ?_, ?_⟩
          · rw [impRun_cons, hk1, h2]
            ring
          · rw [impRun_cons, hk2, h1]
            push_cast
            ring
          · rw [impRun_cons, hk2, h1]
            have hk0 : (0 : ℚ) ≤ (k : ℚ) * IMPULSE_RESOLUTION :=
              mul_nonneg (by positivity) hres
            linarith
  · intro e
    unfold load_gas_usage
    split_ifs
    · exact Or.inr rfl
    · exact Or.inl rfl

/-! ## ReportScheduler: `post_gas_usage`

`post_gas_usage` is invoked only when `time_now` (whole seconds) has
changed, i.e. at most once per wall-clock second.  A scheduler time step
`t` therefore counts seconds; the calendar decoding `localtime_r` is
modelled by `hourAt t = (t / 3600) % 24` for a run starting at midnight,
with `tm_year` supplied by an arbitrary function of `t`.  The HTTP response
the attempt would observe at step `t` is an arbitrary `resp t : ℤ`. -/

/-- The report scheduler's globals plus a ghost counter of successful
(HTTP 200) posts. -/
structure PostState where
  posted_today : Bool
  post_retry_time : ℕ
  posts : ℕ
deriving DecidableEq

/-- One evaluation of `post_gas_usage()` given the decoded hour, `tm_year`,
and the response code an attempt would receive. -/
def postStep (hour year : ℕ) (resp : ℤ) (s : PostState) : PostState :=
  if s.posted_today = false ∧ hour = REPORT_HOUR ∧ 100 < year then
    if POST_RETRY_TIME ≤ s.post_retry_time then
      if resp = 200 then
        { posted_today := true, post_retry_time := 0, posts := s.posts + 1 }
      else
        { s with post_retry_time := 0 }
    else
      { s with post_retry_time := (s.post_retry_time + 1) % U32 }
  else if hour = RESET_HOUR then
    { s with posted_today := false, post_retry_time := POST_RETRY_TIME }
  else s

/-- The globals' initial values at boot. -/
def postInit : PostState :=
  { posted_today := false, post_retry_time := POST_RETRY_TIME, posts := 0 }

/-- Hour of day at second `t` of a run starting at midnight. -/
def hourAt (t : ℕ) : ℕ := t / 3600 % 24

/-- The scheduler run: state after `n` once-per-second evaluations. -/
def schedRun (resp : ℕ → ℤ) (yr : ℕ → ℕ) : ℕ → PostState
  | 0 => postInit
  | n + 1 => postStep (hourAt n) (yr n) (resp n) (schedRun resp yr n)

/-- A post attempt (HTTP request actually sent) happens at step `t`. -/
def attemptAt (resp : ℕ → ℤ) (yr : ℕ → ℕ) (t : ℕ) : Prop :=
  (schedRun resp yr t).posted_today = false ∧ hourAt t = REPORT_HOUR ∧
    100 < yr t ∧ POST_RETRY_TIME ≤ (schedRun resp yr t).post_retry_time

/-! ### `postStep` case lemmas -/

theorem postStep_reset (hour year : ℕ) (resp : ℤ) (s : PostState)
    (h : hour = RESET_HOUR) :
    postStep hour year resp s =
      { s with posted_today := false, post_retry_time := POST_RETRY_TIME } := by
  unfold postStep
  rw [if_neg, if_pos h]
  rw [h]
  intro hc
  exact absurd hc.2.1 (by decide)

theorem postStep_posts (hour year : ℕ) (resp : ℤ) (s : PostState) :
    (postStep hour year resp s).posts = s.posts ∨
      ((postStep hour year resp s).posts = s.posts + 1 ∧
        s.posted_today = false ∧
        (postStep hour year resp s).posted_today = true ∧ hour = REPORT_HOUR) := by
  unfold postStep
  split_ifs with h1 h2 h3 h4
  · exact Or.inr ⟨rfl, h1.1, rfl, h1.2.1⟩
  · exact Or.inl rfl
  · exact Or.inl rfl
  · exact Or.inl rfl
  · exact Or.inl rfl

theorem postStep_set_true (hour year : ℕ) (resp : ℤ) (s : PostState)
    (h0 : s.posted_today = false)
    (h1 : (postStep hour year resp s).posted_today = true) :
    (postStep hour year resp s).posts = s.posts + 1 ∧ hour = REPORT_HOUR := by
  rcases postStep_posts hour year resp s with h | h
  · exfalso
    revert h h1
    unfold postStep
    split_ifs with hc1 hc2 hc3 hc4 <;> simp [h0]
  · exact ⟨h.1, h.2.2.2⟩

theorem postStep_clear (hour year : ℕ) (resp : ℤ) (s : PostState)
    (h0 : s.posted_today = true)
    (h1 : (postStep hour year resp s).posted_today = false) :
    hour = RESET_HOUR := by
  revert h1
  unfold postStep
  split_ifs with hc1 hc2 hc3 hc4
  · rw [h0] at hc1
    exact absurd hc1.1 (by decide)
  · rw [h0] at hc1
    exact absurd hc1.1 (by decide)
  · rw [h0] at hc1
    exact absurd hc1.1 (by decide)
  · intro _
    exact hc4
  · intro h1
    rw [h0] at h1
    exact absurd h1 (by decide)

theorem postStep_retry_succ (hour year : ℕ) (resp : ℤ) (s : PostState)
    (h : hour ≠ RESET_HOUR) :
    (postStep hour year resp s).post_retry_time ≤ s.post_retry_time + 1 := by
  unfold postStep
  by_cases hA : s.posted_today = false ∧ hour = REPORT_HOUR ∧ 100 < year
  · rw [if_pos hA]
    by_cases hB : POST_RETRY_TIME ≤ s.post_retry_time
    · rw [if_pos hB]
      by_cases hC : resp = 200
      · rw [if_pos hC]
        show (0 : ℕ) ≤ s.post_retry_time + 1
        omega
      · rw [if_neg hC]
        show (0 : ℕ) ≤ s.post_retry_time + 1
        omega
    · rw [if_neg hB]
      show (s.post_retry_time + 1) % U32 ≤ s.post_retry_time + 1
      exact Nat.mod_le _ _
  · rw [if_neg hA, if_neg h]
    omega

theorem postStep_other (hour year : ℕ) (resp : ℤ) (s : PostState)
    (h2 : hour ≠ REPORT_HOUR) (h3 : hour ≠ RESET_HOUR) :
    postStep hour year resp s = s := by
  unfold postStep
  rw [if_neg (fun hc => h2 hc.2.1), if_neg h3]

/-! ## Claim C6 -/

/-- C6 counterexample: the reset hour (3 am) is not earlier in the day than
the report hour (2 am) — the code posts at hour 2 and clears `posted_today`
at hour 3, so within a calendar day the reset follows the report attempt. -/
theorem reset_hour_after_report_hour_cex :
    ¬RESET_HOUR < REPORT_HOUR ∧ RESET_HOUR = 3 ∧ REPORT_HOUR = 2 := by
  refine ⟨?_, rfl, rfl⟩
  decide

/-- C6 (amended): evaluating the scheduler at the reset hour unconditionally
clears `posted_today` and restores the retry timer to the full window; the
reset hour (3) is distinct from but later in the day than the report hour
(2), so within each calendar day the report attempt precedes the reset. -/
theorem reset_hour_behavior (year : ℕ) (resp : ℤ) (s : PostState) :
    postStep RESET_HOUR year resp s =
      { s with posted_today := false, post_retry_time := POST_RETRY_TIME } ∧
      REPORT_HOUR < RESET_HOUR ∧ REPORT_HOUR ≠ RESET_HOUR :=
  ⟨postStep_reset RESET_HOUR year resp s rfl, by decide, by decide⟩

/-! ## Claim C4 -/

theorem schedRun_posts_mono (resp : ℕ → ℤ) (yr : ℕ → ℕ) :
    ∀ m n : ℕ, m ≤ n → (schedRun resp yr m).posts ≤ (schedRun resp yr n).posts := by
  intro m n hmn
  induction n with
  | zero =>
      have hm : m = 0 := by omega
      rw [hm]
  | succ n ih =>
      by_cases hm : m = n + 1
      · rw [hm]
      · have h1 : m ≤ n := by omega
        have h2 := ih h1
        have h3 : (schedRun resp yr n).posts ≤ (schedRun resp yr (n + 1)).posts := by
          show (schedRun resp yr n).posts ≤
            (postStep (hourAt n) (yr n) (resp n) (schedRun resp yr n)).posts
          rcases postStep_posts (hourAt n) (yr n) (resp n) (schedRun resp yr n) with
            h | ⟨h, _⟩
          · omega
          · omega
        omega

/-- The day invariant: through second 86400 at most one success has been
recorded, and if a success is recorded while `posted_today` is false, the
reset hour must already have passed. -/
theorem schedRun_day_inv (resp : ℕ → ℤ) (yr : ℕ → ℕ) :
    ∀ n : ℕ, n ≤ 86400 →
      (schedRun resp yr n).posts ≤ 1 ∧
        ((schedRun resp yr n).posts = 1 →
          (schedRun resp yr n).posted_today = false → 10801 ≤ n) := by
  intro n
  induction n with
  | zero =>
      intro _
      constructor
      · show (0 : ℕ) ≤ 1
        omega
      · intro h
        have h0 : (0 : ℕ) = 1 := h
        omega
  | succ n ih =>
      intro hn
      obtain ⟨ih1, ih2⟩ := ih (by omega)
      have hstep : schedRun resp yr (n + 1) =
          postStep (hourAt n) (yr n) (resp n) (schedRun resp yr n) := rfl
      rcases postStep_posts (hourAt n) (yr n) (resp n) (schedRun resp yr n) with
        h | ⟨hp, hf, ht, hh⟩
      · constructor
        · rw [hstep, h]
          exact ih1
        · intro h1 h2
          rw [hstep] at h1 h2
          rw [h] at h1
          cases hpt : (schedRun resp yr n).posted_today
          · have := ih2 h1 hpt
            omega
          · have hhr : hourAt n = RESET_HOUR :=
              postStep_clear (hourAt n) (yr n) (resp n) (schedRun resp yr n) hpt h2
            have hn3 : n / 3600 % 24 = 3 := hhr
            omega
      · have hn3 : n / 3600 % 24 = 2 := hh
        have hn2 : n < 10800 := by omega
        have hz : (schedRun resp yr n).posts = 0 := by
          by_cases h0 : (schedRun resp yr n).posts = 1
          · have := ih2 h0 hf
            omega
          · omega
        constructor
        · rw [hstep, hp, hz]
        · intro _ h2
          rw [hstep] at h2
          rw [ht] at h2
          exact Bool.noConfusion h2

/-- C4: over a simulated 24-hour day of once-per-second evaluations from the
boot state, with arbitrary per-attempt HTTP responses and clock years: at
most one successful post is recorded; evaluation at the reset hour always
leaves `posted_today` false; and `posted_today` cannot transition from false
to true at two distinct times of the day. -/
theorem daily_report_idempotent (resp : ℕ → ℤ) (yr : ℕ → ℕ) :
    (schedRun resp yr 86400).posts ≤ 1 ∧
      (∀ t, t < 86400 → hourAt t = RESET_HOUR →
        (schedRun resp yr (t + 1)).posted_today = false) ∧
      (∀ t1 t2, t1 < t2 → t2 < 86400 →
        (schedRun resp yr t1).posted_today = false →
        (schedRun resp yr (t1 + 1)).posted_today = true →
        (schedRun resp yr t2).posted_today = false →
        (schedRun resp yr (t2 + 1)).posted_today = true → False) := by
  refine ⟨(schedRun_day_inv resp yr 86400 (le_refl _)).1, ?_, ?_⟩
  · intro t _ hh
    have hstep : schedRun resp yr (t + 1) =
        postStep (hourAt t) (yr t) (resp t) (schedRun resp yr t) := rfl
    rw [hstep, postStep_reset (hourAt t) (yr t) (resp t) (schedRun resp yr t) hh]
  · intro t1 t2 h12 h2b hf1 ht1 hf2 ht2
    have e1 := postStep_set_true (hourAt t1) (yr t1) (resp t1)
      (schedRun resp yr t1) hf1 ht1
    have e2 := postStep_set_true (hourAt t2) (yr t2) (resp t2)
      (schedRun resp yr t2) hf2 ht2
    have m1 : (schedRun resp yr (t1 + 1)).posts =
        (schedRun resp yr t1).posts + 1 := e1.1
    have m2 : (schedRun resp yr (t2 + 1)).posts =
        (schedRun resp yr t2).posts + 1 := e2.1
    have mono1 := schedRun_posts_mono resp yr (t1 + 1) t2 (by omega)
    have mono2 := schedRun_posts_mono resp yr (t2 + 1) 86400 (by omega)
    have hbound := (schedRun_day_inv resp yr 86400 (le_refl _)).1
    omega

/-- Witness for C4: with every attempt succeeding and a sane year, the state
just after the reset hour begins (second 10801 of the day) has
`posted_today` cleared. -/
theorem daily_report_idempotent_witness :
    (schedRun (fun _ => (200 : ℤ)) (fun _ => 125) 10801).posted_today = false :=
  (daily_report_idempotent (fun _ => (200 : ℤ)) (fun _ => 125)).2.1 10800
    (by omega) (by decide)

/-! ## Claim C5 -/

theorem schedRun_retry_bound (resp : ℕ → ℤ) (yr : ℕ → ℕ) (t : ℕ) :
    ∀ u : ℕ, t ≤ u →
      (∀ v, t ≤ v → v < u → hourAt v ≠ RESET_HOUR) →
      (schedRun resp yr u).post_retry_time ≤
        (schedRun resp yr t).post_retry_time + (u - t) := by
  intro u
  induction u with
  | zero =>
      intro h _
      have ht0 : t = 0 := by omega
      rw [ht0]
      omega
  | succ u ih =>
      intro h hv
      by_cases hu : t = u + 1
      · rw [hu]
        omega
      · have h1 : t ≤ u := by omega
        have h2 := ih h1 (fun v hv1 hv2 => hv v hv1 (by omega))
        have h3 : (schedRun resp yr (u + 1)).post_retry_time ≤
            (schedRun resp yr u).post_retry_time + 1 :=
          postStep_retry_succ (hourAt u) (yr u) (resp u) (schedRun resp yr u)
            (hv u h1 (by omega))
        omega

/-- Two evaluations at the report hour separated by one at the reset hour
are at least a full day window apart — far more than the retry window. -/
theorem hour_window_sep (t u t2 : ℕ) (h1 : hourAt t = REPORT_HOUR)
    (h2 : hourAt u = RESET_HOUR) (h3 : hourAt t2 = REPORT_HOUR)
    (htu : t < u) (hut : u < t2) : t + POST_RETRY_TIME ≤ t2 := by
  have a1 : t / 3600 % 24 = 2 := h1
  have a2 : u / 3600 % 24 = 3 := h2
  have a3 : t2 / 3600 % 24 = 2 := h3
  have hp : POST_RETRY_TIME = 300 := rfl
  omega

/-- C5: when a post attempt observes a non-200 response, `posted_today`
stays false and the retry timer is zero immediately afterwards, and any
later attempt happens only once the full retry window (300 once-per-second
evaluations, 5 minutes) has elapsed since the failed attempt — never on the
immediately following evaluations. -/
theorem report_retry_window (resp : ℕ → ℤ) (yr : ℕ → ℕ) (t : ℕ)
    (hatt : attemptAt resp yr t) (hfail : resp t ≠ 200) :
    (schedRun resp yr (t + 1)).posted_today = false ∧
      (schedRun resp yr (t + 1)).post_retry_time = 0 ∧
      ∀ u, t < u → attemptAt resp yr u → t + POST_RETRY_TIME ≤ u := by
  obtain ⟨hf, hh, hy, hr⟩ := hatt
  have hstep : schedRun resp yr (t + 1) =
      postStep (hourAt t) (yr t) (resp t) (schedRun resp yr t) := rfl
  have hfailstep : schedRun resp yr (t + 1) =
      { schedRun resp yr t with post_retry_time := 0 } := by
    rw [hstep]
    unfold postStep
    rw [if_pos ⟨hf, hh, hy⟩, if_pos hr, if_neg hfail]
  refine ⟨?_, ?_, ?_⟩
  · rw [hfailstep]
    exact hf
  · rw [hfailstep]
  · intro u hu hau
    obtain ⟨_, hh2, _, hr2⟩ := hau
    by_cases hmid : ∃ v, t < v ∧ v < u ∧ hourAt v = RESET_HOUR
    · obtain ⟨v, hv1, hv2, hv3⟩ := hmid
      exact hour_window_sep t v u hh hv3 hh2 hv1 hv2
    · push_neg at hmid
      have hb := schedRun_retry_bound resp yr (t + 1) u (by omega)
        (fun v hv1 hv2 => hmid v (by omega) hv2)
      have h0 : (schedRun resp yr (t + 1)).post_retry_time = 0 := by
        rw [hfailstep]
      have hp : POST_RETRY_TIME = 300 := rfl
      omega

/-- Up to the start of the report hour nothing in the scheduler changes:
hours 0 and 1 take neither the attempt branch nor the reset branch. -/
theorem schedRun_early (resp : ℕ → ℤ) (yr : ℕ → ℕ) :
    ∀ n, n ≤ 7200 → schedRun resp yr n = postInit := by
  intro n
  induction n with
  | zero => intro _; rfl
  | succ n ih =>
      intro hn
      have hstep : schedRun resp yr (n + 1) =
          postStep (hourAt n) (yr n) (resp n) (schedRun resp yr n) := rfl
      have hhr : n / 3600 % 24 ≠ 2 ∧ n / 3600 % 24 ≠ 3 := by omega
      rw [hstep, postStep_other (hourAt n) (yr n) (resp n) (schedRun resp yr n)
        hhr.1 hhr.2]
      exact ih (by omega)

/-- Witness for C5: the very first attempt of the day (second 7200) failing
with HTTP 500 leaves `posted_today` false. -/
theorem report_retry_window_witness :
    (schedRun (fun _ => (500 : ℤ)) (fun _ => 125) 7201).posted_today = false :=
  (report_retry_window (fun _ => (500 : ℤ)) (fun _ => 125) 7200
    ⟨by rw [schedRun_early (fun _ => (500 : ℤ)) (fun _ => 125) 7200 (le_refl _)]
        rfl,
     by decide, by decide,
     by rw [schedRun_early (fun _ => (500 : ℤ)) (fun _ => 125) 7200 (le_refl _)]
        decide⟩
    (by decide)).1
